import Mathlib

/-!
Verification development for a browser-only PSD → PNG/JPG converter.

The program (a React single-page app plus a worker) decodes the composite
image of a user-selected PSD file and exports it as PNG or JPEG at a scale
factor.  This file gives a shallow embedding of the app's own logic:
the parse-dispatch validation (`handleFile`), the worker's one-shot
request/response handler (`workerOnParse`), the bitmap-resource lifecycle
of the decoded composite (`installParsed` and friends), and the export
routine (`onDownload`).  Machine numbers that matter are modelled exactly:
the scale factor and pixel arithmetic use `ℚ` and `ℤ` with JavaScript's
`Math.round` semantics (`jsRound`), and strings are lists of characters
with JavaScript's ASCII `toLowerCase` on the relevant paths.
-/

namespace PsdConvert

/-! ### Data model (App.tsx lines 4-16, 19-27) -/

/-- Output format: the `OutputFormat` union type, `'png' | 'jpg'`. -/
inductive OutputFormat
  | png
  | jpg
deriving DecidableEq

/-- A CSS color value as picked by the color input (an opaque RGB triple;
the `#rrggbb` strings produced by an `input type=color` carry no alpha). -/
structure Color where
  red : ℚ
  green : ℚ
  blue : ℚ
deriving DecidableEq

/-- The `ParsedComposite` record: file name, native pixel dimensions, the
bitmap handle (modelled as a numeric resource id), and provenance flag. -/
structure ParsedComposite where
  fileName : List Char
  width : ℕ
  height : ℕ
  bitmap : ℕ
  usedWorker : Bool
deriving DecidableEq

/-- The React state of the `App` component: drag flag, parsing flag,
error text, the current decoded composite, and the export options. -/
structure AppState where
  isDragging : Bool
  isParsing : Bool
  error : Option (List Char)
  parsed : Option ParsedComposite
  format : OutputFormat
  jpgQuality : ℚ
  jpgBackground : Color
  scale : ℚ
deriving DecidableEq

/-- `setError`: the state after a `setError(msg)` call, everything else kept. -/
def setError (st : AppState) (m : List Char) : AppState :=
  { st with error := some m }

/-! ### JavaScript-exact numeric helpers -/

/-- JavaScript's `Math.round`: half-up rounding, `⌊x + 1/2⌋`. -/
def jsRound (q : ℚ) : ℤ :=
  Int.floor (q + 1 / 2)

/-- One export dimension, App.tsx lines 140-141:
`Math.max(1, Math.round(native * scale))`.  The result is positive, so it
is kept as a `ℕ` via `Int.toNat`. -/
def exportDim (native : ℕ) (scale : ℚ) : ℕ :=
  (max 1 (jsRound ((native : ℚ) * scale))).toNat

/-! ### File-name handling (App.tsx lines 115 and 176) -/

/-- The characters of the expected extension. -/
def psdExtChars : List Char := ['.', 'p', 's', 'd']

/-- `file.name.toLowerCase().endsWith('.psd')` (App.tsx line 115).
`Char.toLower` is exactly JavaScript's `toLowerCase` on the ASCII range. -/
def hasPsdExtension (name : List Char) : Bool :=
  psdExtChars.isSuffixOf (name.map Char.toLower)

/-- `fileName.replace(/\.psd$/i, '')` (App.tsx line 176): the
case-insensitive anchored pattern strips a trailing `.psd` when present. -/
def stripPsdExt (name : List Char) : List Char :=
  if hasPsdExtension name then name.take (name.length - 4) else name

/-- Decimal digits of a natural number, as produced by a JS template
literal for a nonnegative integer. -/
def natDigits (n : ℕ) : List Char :=
  (Nat.repr n).data

/-- The extension of the download name is the format string itself. -/
def formatExt : OutputFormat → List Char
  | OutputFormat.png => ['p', 'n', 'g']
  | OutputFormat.jpg => ['j', 'p', 'g']

/-- The template literal of App.tsx line 177:
the base name, a hyphen, the export width, an x, the export height,
a dot and the format extension. -/
def downloadNameOf (fileName : List Char) (w h : ℕ) (format : OutputFormat) : List Char :=
  stripPsdExt fileName ++ '-' :: natDigits w ++ 'x' :: natDigits h ++ '.' :: formatExt format

/-! ### Parse dispatch (App.tsx `handleFile`, lines 110-131) -/

/-- Which decode path a file is sent down. -/
inductive DispatchTarget
  | worker
  | mainThread
deriving DecidableEq

/-- The observable outcome of `handleFile`: the error text set (if any) and
the decode dispatch performed (if any). -/
structure HandleResult where
  error : Option (List Char)
  dispatch : Option DispatchTarget
deriving DecidableEq

/-- Error message of App.tsx line 116. -/
def errNotPsdMsg : List Char := (r"Please select a .psd file.").data

/-- `handleFile` (App.tsx lines 110-131): names failing the extension check
throw before any decode (caught at line 127, which sets the error); valid
names are posted to the worker when one exists, else parsed on the main
thread. -/
def handleFile (hasWorker : Bool) (name : List Char) : HandleResult :=
  if hasPsdExtension name then
    if hasWorker then ⟨none, some DispatchTarget.worker⟩
    else ⟨none, some DispatchTarget.mainThread⟩
  else ⟨some errNotPsdMsg, none⟩

/-! ### The worker handler (psdComposite.worker.ts, `self.onmessage`) -/

/-- The result of `readPsd`: dimensions and an optional composite canvas
(a resource handle).  `psd.canvas` is absent when the PSD has no composite
image data. -/
structure Psd where
  width : ℕ
  height : ℕ
  canvas : Option ℕ
deriving DecidableEq

/-- A message posted by the worker back to the main thread. -/
inductive WorkerResponse
  | parsed (fileName : List Char) (width height : ℕ) (bitmap : ℕ)
  | error (message : List Char)
deriving DecidableEq

/-- Worker error message when `OffscreenCanvas` is unavailable. -/
def errNoOffscreenMsg : List Char :=
  (r"OffscreenCanvas is not supported in this browser.").data

/-- Worker error message when the decoded PSD has no composite canvas. -/
def errNoCompositeMsg : List Char :=
  (r"No composite image found in this PSD (or unsupported PSD features).").data

/-- `canvas.transferToImageBitmap()`: the bitmap handle obtained from the
composite canvas handle. -/
def transferToImageBitmap (canvasHandle : ℕ) : ℕ := canvasHandle

/-- The worker's `onmessage` handler for a `parse` request
(psdComposite.worker.ts lines 154-188).  `decodeResult` is the outcome of
`readPsd` (`Except.error` models a thrown exception, caught at line 184).
The returned list is the sequence of messages posted in reply. -/
def workerOnParse (offscreenSupported : Bool) (fileName : List Char)
    (decodeResult : Except (List Char) Psd) : List WorkerResponse :=
  if offscreenSupported = false then [WorkerResponse.error errNoOffscreenMsg]
  else
    match decodeResult with
    | Except.error m => [WorkerResponse.error m]
    | Except.ok psd =>
      match psd.canvas with
      | none => [WorkerResponse.error errNoCompositeMsg]
      | some c =>
          [WorkerResponse.parsed fileName psd.width psd.height (transferToImageBitmap c)]

/-- Whether a worker response is the success variant (carries a bitmap). -/
def WorkerResponse.isParsed : WorkerResponse → Bool
  | WorkerResponse.parsed _ _ _ _ => true
  | WorkerResponse.error _ => false

/-! ### Decode options (App.tsx line 100; worker line 164) -/

/-- The options record passed to `readPsd`. -/
structure ReadPsdOptions where
  skipLayerImageData : Bool
  skipThumbnail : Bool
deriving DecidableEq

/-- The options in the worker path (psdComposite.worker.ts line 164). -/
def workerReadOptions : ReadPsdOptions :=
  { skipLayerImageData := true, skipThumbnail := true }

/-- The options in the main-thread fallback path (App.tsx line 100). -/
def mainThreadReadOptions : ReadPsdOptions :=
  { skipLayerImageData := true, skipThumbnail := true }

/-- The decoder contract as the spec states it:
`decode(bytes, {skipLayerData: true, skipThumbnail: true})`. -/
structure SpecDecodeOptions where
  skipLayerData : Bool
  skipThumbnail : Bool
deriving DecidableEq

/-- The spec's stated option values. -/
def specDecodeOptions : SpecDecodeOptions :=
  { skipLayerData := true, skipThumbnail := true }

/-- Correspondence between the code's `readPsd` options and the spec's
abstract decoder options: skip-layer-image-data realises skip-layer-data. -/
def optionsMatchSpec (o : ReadPsdOptions) (s : SpecDecodeOptions) : Prop :=
  o.skipLayerImageData = s.skipLayerData ∧ o.skipThumbnail = s.skipThumbnail

/-! ### Bitmap resource lifecycle (App.tsx lines 55-64 and 104-107) -/

/-- Resource-level state: the set of open (not yet closed) bitmap handles,
and the currently installed decoded composite. -/
structure ResourceState where
  openBitmaps : Finset ℕ
  parsed : Option ParsedComposite
deriving DecidableEq

/-- The bitmap handles referenced by an installed composite. -/
def bitmapsOf : Option ParsedComposite → Finset ℕ
  | none => ∅
  | some p => {p.bitmap}

/-- The live-resource invariant: the open bitmaps are exactly those of the
currently installed composite. -/
def liveInv (st : ResourceState) : Prop :=
  st.openBitmaps = bitmapsOf st.parsed

/-- A bitmap handle coming into existence (created in the worker and
transferred, or by `createImageBitmap` on the main thread). -/
def createBitmap (st : ResourceState) (b : ℕ) : ResourceState :=
  { st with openBitmaps := insert b st.openBitmaps }

/-- The effect of `prev?.bitmap.close()` in the `setParsed` updater. -/
def closePrevBitmap (st : ResourceState) : Finset ℕ :=
  match st.parsed with
  | none => st.openBitmaps
  | some prev => st.openBitmaps.erase prev.bitmap

/-- The `setParsed((prev) => { prev?.bitmap.close(); return {...} })`
updater common to both decode paths: the previous bitmap is closed and the
new composite installed. -/
def installParsed (usedWorker : Bool) (st : ResourceState)
    (fileName : List Char) (w h b : ℕ) : ResourceState :=
  { openBitmaps := closePrevBitmap st
    parsed := some ⟨fileName, w, h, b, usedWorker⟩ }

/-- The worker decode path installing its result (App.tsx lines 55-64):
the transferred bitmap exists, then the updater runs with
`usedWorker: true`. -/
def workerInstall (st : ResourceState) (fileName : List Char) (w h b : ℕ) : ResourceState :=
  installParsed true (createBitmap st b) fileName w h b

/-- The main-thread decode path installing its result (App.tsx lines
104-107): `createImageBitmap` produces the handle, then the updater runs
with `usedWorker: false`. -/
def mainThreadInstall (st : ResourceState) (fileName : List Char) (w h b : ℕ) : ResourceState :=
  installParsed false (createBitmap st b) fileName w h b

/-! ### Pixel semantics for the export surface (App.tsx lines 146-161) -/

/-- A premultiplied-alpha RGBA pixel. -/
structure Pixel where
  red : ℚ
  green : ℚ
  blue : ℚ
  alpha : ℚ
deriving DecidableEq

/-- The fully transparent pixel, the content of a cleared canvas. -/
def transparentPixel : Pixel := ⟨0, 0, 0, 0⟩

/-- A fully opaque pixel of a given color, the content after `fillRect`
with an opaque `fillStyle`. -/
def opaquePixel (c : Color) : Pixel := ⟨c.red, c.green, c.blue, 1⟩

/-- Canvas source-over compositing (the default `globalCompositeOperation`
used by `drawImage`), on premultiplied pixels. -/
def sourceOver (src dst : Pixel) : Pixel :=
  ⟨src.red + dst.red * (1 - src.alpha),
   src.green + dst.green * (1 - src.alpha),
   src.blue + dst.blue * (1 - src.alpha),
   src.alpha + dst.alpha * (1 - src.alpha)⟩

/-- The surface-preparation step before `drawImage`: a `fillRect` with the
background color, or a `clearRect`. -/
inductive SurfaceFill
  | fill (c : Color)
  | clear
deriving DecidableEq

/-- The pixel every point of the surface holds after the preparation step. -/
def fillSem : SurfaceFill → Pixel
  | SurfaceFill.fill c => opaquePixel c
  | SurfaceFill.clear => transparentPixel

/-- A pixel of the export surface after `drawImage`: the sampled source
pixel composited over the prepared surface. -/
def exportPixel (prep : SurfaceFill) (src : Pixel) : Pixel :=
  sourceOver src (fillSem prep)

/-! ### The export routine `onDownload` (App.tsx lines 137-187) -/

/-- The draw pass on the export canvas: its dimensions, the preparation
step, and the smoothing flag. -/
structure DrawCommand where
  width : ℕ
  height : ℕ
  prep : SurfaceFill
  smoothing : Bool
deriving DecidableEq

/-- One `toBlob` invocation: the MIME type and the optional quality
argument. -/
structure EncodeCall where
  mime : List Char
  quality : Option ℚ
deriving DecidableEq

/-- A triggered browser download: suggested file name and the blob. -/
structure DownloadFile where
  name : List Char
  blob : ℕ
deriving DecidableEq

/-- The environment the browser supplies to one `onDownload` run: whether
`getContext('2d')` succeeds, and what `toBlob` delivers (a blob handle, or
null). -/
structure ExportEnv where
  ctxAvailable : Bool
  blob : Option ℕ
deriving DecidableEq

/-- Everything observable about one `onDownload` run. -/
structure ExportResult where
  state : AppState
  download : Option DownloadFile
  surfaceAllocated : Bool
  encodeCall : Option EncodeCall
  drawCmd : Option DrawCommand
deriving DecidableEq

/-- Error message of App.tsx line 148. -/
def errNoCtxMsg : List Char :=
  (r"Canvas 2D context is unavailable in this browser.").data

/-- Error message of App.tsx line 172. -/
def errNullBlobMsg : List Char :=
  (r"Export failed (toBlob returned null).").data

/-- MIME string for PNG encoding. -/
def mimePng : List Char := (r"image/png").data

/-- MIME string for JPEG encoding. -/
def mimeJpeg : List Char := (r"image/jpeg").data

/-- The `toBlob` call of App.tsx lines 163-169: PNG takes no quality,
JPEG passes `jpgQuality`. -/
def encodeCallOf (format : OutputFormat) (quality : ℚ) : EncodeCall :=
  match format with
  | OutputFormat.png => ⟨mimePng, none⟩
  | OutputFormat.jpg => ⟨mimeJpeg, some quality⟩

/-- The draw pass of App.tsx lines 143-161: the canvas is sized to the
scaled dimensions, the surface prepared (background fill for JPEG at line
152-154, transparent `clearRect` for PNG at line 156), and
`imageSmoothingEnabled` set to `scale !== 1` (line 159). -/
def exportCommand (st : AppState) (p : ParsedComposite) : DrawCommand :=
  ⟨exportDim p.width st.scale, exportDim p.height st.scale,
   (if st.format = OutputFormat.jpg then SurfaceFill.fill st.jpgBackground
    else SurfaceFill.clear),
   decide (st.scale ≠ 1)⟩

/-- `onDownload` (App.tsx lines 137-187).  Returns immediately when no
composite is loaded; otherwise allocates the canvas at the scaled
dimensions, bails out with an error when the 2D context is unavailable,
prepares the surface (background fill for JPEG, transparent for PNG),
draws with smoothing exactly when the scale is not 1, encodes, bails out
with an error when the blob is null, and finally triggers the download. -/
def onDownload (st : AppState) (env : ExportEnv) : ExportResult :=
  match st.parsed with
  | none => ⟨st, none, false, none, none⟩
  | some p =>
    if env.ctxAvailable = false then
      ⟨setError st errNoCtxMsg, none, true, none, none⟩
    else
      let cmd := exportCommand st p
      let enc := encodeCallOf st.format st.jpgQuality
      match env.blob with
      | none => ⟨setError st errNullBlobMsg, none, true, some enc, some cmd⟩
      | some b =>
          ⟨st, some ⟨downloadNameOf p.fileName cmd.width cmd.height st.format, b⟩,
           true, some enc, some cmd⟩

/-! ### Helper lemmas -/

/-- The code's extension check accepts a name exactly when some four-letter
suffix of it lowercases to `.psd`. -/
theorem hasPsdExtension_iff (name : List Char) :
    hasPsdExtension name = true ↔
      ∃ e, List.map Char.toLower e = psdExtChars ∧ e <:+ name := by
  unfold hasPsdExtension
  rw [List.isSuffixOf_iff_suffix, List.isSuffix_map_iff]
  constructor
  · rintro ⟨l, hl, he⟩
    exact ⟨l, he.symm, hl⟩
  · rintro ⟨e, he, hs⟩
    exact ⟨e, hs, he.symm⟩

/-- When the extension check passes, `stripPsdExt` removes exactly a
four-character suffix whose lowercase form is `.psd`. -/
theorem stripPsdExt_append (name : List Char) (h : hasPsdExtension name = true) :
    ∃ e, List.map Char.toLower e = psdExtChars ∧ name = stripPsdExt name ++ e := by
  obtain ⟨e, he, t, ht⟩ := (hasPsdExtension_iff name).mp h
  refine ⟨e, he, ?_⟩
  have hlen : e.length = 4 := by
    have := congrArg List.length he
    simpa using this
  have htake : stripPsdExt name = t := by
    unfold stripPsdExt
    rw [if_pos h, ← ht]
    have hlen2 : (t ++ e).length - 4 = t.length := by
      simp [List.length_append, hlen]
    rw [hlen2]
    exact List.take_left t e
  rw [htake, ht]

/-- `jsRound` is the identity on integers. -/
theorem jsRound_intCast (n : ℤ) : jsRound ((n : ℚ)) = n := by
  unfold jsRound
  rw [Int.floor_int_add]
  norm_num

/-- `exportDim` at scale 1 returns any positive native dimension. -/
theorem exportDim_one (w : ℕ) (hw : 1 ≤ w) : exportDim w 1 = w := by
  unfold exportDim
  rw [mul_one]
  have h1 : jsRound ((w : ℚ)) = (w : ℤ) := by
    have := jsRound_intCast ((w : ℤ))
    simpa using this
  rw [h1, max_eq_right (by exact_mod_cast hw)]
  exact Int.toNat_natCast w

/-- Reducing `onDownload` when no composite is loaded. -/
theorem onDownload_of_none (st : AppState) (env : ExportEnv)
    (h : st.parsed = none) : onDownload st env = ⟨st, none, false, none, none⟩ := by
  unfold onDownload
  rw [h]

/-- Reducing `onDownload` when the 2D context is unavailable. -/
theorem onDownload_of_noCtx (st : AppState) (env : ExportEnv) (p : ParsedComposite)
    (hp : st.parsed = some p) (hc : env.ctxAvailable = false) :
    onDownload st env = ⟨setError st errNoCtxMsg, none, true, none, none⟩ := by
  unfold onDownload
  rw [hp]
  simp [hc]

/-- Reducing `onDownload` when the context is available but `toBlob`
delivers null. -/
theorem onDownload_of_nullBlob (st : AppState) (env : ExportEnv) (p : ParsedComposite)
    (hp : st.parsed = some p) (hc : env.ctxAvailable = true) (hb : env.blob = none) :
    onDownload st env =
      ⟨setError st errNullBlobMsg, none, true,
       some (encodeCallOf st.format st.jpgQuality), some (exportCommand st p)⟩ := by
  unfold onDownload
  rw [hp]
  simp [hc, hb]

/-- Reducing `onDownload` on the success path. -/
theorem onDownload_of_blob (st : AppState) (env : ExportEnv) (p : ParsedComposite) (b : ℕ)
    (hp : st.parsed = some p) (hc : env.ctxAvailable = true) (hb : env.blob = some b) :
    onDownload st env =
      ⟨st,
       some ⟨downloadNameOf p.fileName (exportCommand st p).width
               (exportCommand st p).height st.format, b⟩,
       true, some (encodeCallOf st.format st.jpgQuality), some (exportCommand st p)⟩ := by
  unfold onDownload
  rw [hp]
  simp [hc, hb]

/-! ### Concrete demonstration values -/

/-- A small decoded composite used in concrete instantiations. -/
def demoComposite : ParsedComposite := ⟨['a'], 2, 3, 0, true⟩

/-- A state with the demo composite loaded and JPEG export selected. -/
def demoStateJpg : AppState :=
  ⟨false, false, none, some demoComposite, OutputFormat.jpg, 9 / 10, ⟨1, 1, 1⟩, 1⟩

/-- A state with the demo composite loaded and PNG export selected. -/
def demoStatePng : AppState :=
  ⟨false, false, none, some demoComposite, OutputFormat.png, 9 / 10, ⟨1, 1, 1⟩, 1⟩

/-- A state with nothing loaded. -/
def demoStateEmpty : AppState :=
  ⟨false, false, none, none, OutputFormat.png, 9 / 10, ⟨1, 1, 1⟩, 1⟩

/-- A benign browser environment: context available, encoder delivers. -/
def demoEnv : ExportEnv := ⟨true, some 1⟩

/-! ### Claim theorems -/

/-- C1: the export operation computes the target pixel dimensions as
`max(1, round(w × s)) × max(1, round(h × s))`; with scale 1 the output
dimensions equal the decoded dimensions, and with scale 0.5 a 100×100
composite exports as 50×50.  The last conjunct ties the dimensions to the
draw command actually issued by `onDownload`. -/
theorem c1_export_dimensions :
    (∀ (w : ℕ) (s : ℚ),
      ((exportDim w s : ℤ) = max 1 (jsRound ((w : ℚ) * s)) ∧ 1 ≤ exportDim w s))
    ∧ (∀ w h : ℕ, 1 ≤ w → 1 ≤ h → (exportDim w 1, exportDim h 1) = (w, h))
    ∧ (exportDim 100 (1 / 2), exportDim 100 (1 / 2)) = (50, 50)
    ∧ (∀ (st : AppState) (env : ExportEnv) (p : ParsedComposite) (c : DrawCommand),
        st.parsed = some p → (onDownload st env).drawCmd = some c →
        c.width = exportDim p.width st.scale ∧ c.height = exportDim p.height st.scale) := by
  refine ⟨?_, ?_, ?_, ?_⟩
  · intro w s
    unfold exportDim
    have h1 : (1 : ℤ) ≤ max 1 (jsRound ((w : ℚ) * s)) := le_max_left _ _
    omega
  · intro w h hw hh
    rw [exportDim_one w hw, exportDim_one h hh]
  · have h50 : jsRound (((100 : ℕ) : ℚ) * (1 / 2)) = (50 : ℤ) := by
      have heq : (((100 : ℕ) : ℚ) * (1 / 2)) = ((50 : ℤ) : ℚ) := by norm_num
      rw [heq, jsRound_intCast]
    have : exportDim 100 (1 / 2) = 50 := by
      unfold exportDim
      rw [h50]
      rfl
    rw [this]
  · intro st env p c hp hc
    cases hctx : env.ctxAvailable
    · rw [onDownload_of_noCtx st env p hp hctx] at hc
      exact absurd hc (by simp)
    · cases hb : env.blob
      · rw [onDownload_of_nullBlob st env p hp hctx hb] at hc
        simp only [Option.some.injEq] at hc
        rw [← hc]
        exact ⟨rfl, rfl⟩
      · rw [onDownload_of_blob st env p _ hp hctx hb] at hc
        simp only [Option.some.injEq] at hc
        rw [← hc]
        exact ⟨rfl, rfl⟩

/-- C1 witness: the scale-1 conjunct applied at 100×100. -/
theorem c1_export_dimensions_witness :
    (1 ≤ 100) ∧ (exportDim 100 1, exportDim 100 1) = (100, 100) :=
  ⟨by decide, c1_export_dimensions.2.1 100 100 (by decide) (by decide)⟩

/-- C2: on every export, the JPEG path fills the surface with the
configured background color before drawing, so every composited output
pixel is opaque (and a fully transparent source pixel shows exactly the
background); the PNG path leaves the surface transparent before drawing. -/
theorem c2_jpeg_fill_png_transparent :
    ∀ (st : AppState) (env : ExportEnv) (p : ParsedComposite) (c : DrawCommand),
      st.parsed = some p → (onDownload st env).drawCmd = some c →
      ((st.format = OutputFormat.jpg →
          c.prep = SurfaceFill.fill st.jpgBackground ∧
          fillSem c.prep = opaquePixel st.jpgBackground ∧
          (∀ src : Pixel, (exportPixel c.prep src).alpha = 1) ∧
          exportPixel c.prep transparentPixel = opaquePixel st.jpgBackground) ∧
       (st.format = OutputFormat.png →
          c.prep = SurfaceFill.clear ∧ fillSem c.prep = transparentPixel)) := by
  intro st env p c hp hc
  have hcmd : c = exportCommand st p := by
    cases hctx : env.ctxAvailable
    · rw [onDownload_of_noCtx st env p hp hctx] at hc
      exact absurd hc (by simp)
    · cases hb : env.blob
      · rw [onDownload_of_nullBlob st env p hp hctx hb] at hc
        simpa using hc.symm
      · rw [onDownload_of_blob st env p _ hp hctx hb] at hc
        simpa using hc.symm
  subst hcmd
  constructor
  · intro hfmt
    have hprep : (exportCommand st p).prep = SurfaceFill.fill st.jpgBackground := by
      unfold exportCommand
      simp [hfmt]
    refine ⟨hprep, ?_, ?_, ?_⟩
    · rw [hprep]
      rfl
    · intro src
      rw [hprep]
      show src.alpha + 1 * (1 - src.alpha) = 1
      ring
    · rw [hprep]
      show exportPixel (SurfaceFill.fill st.jpgBackground) transparentPixel =
        opaquePixel st.jpgBackground
      unfold exportPixel sourceOver fillSem opaquePixel transparentPixel
      simp
  · intro hfmt
    have hprep : (exportCommand st p).prep = SurfaceFill.clear := by
      unfold exportCommand
      rw [hfmt]
      simp
    exact ⟨hprep, by rw [hprep]; rfl⟩

/-- C2 witness: a JPEG export on a concrete state. -/
theorem c2_jpeg_fill_png_transparent_witness :
    (demoStateJpg.parsed = some demoComposite) ∧
    ((onDownload demoStateJpg demoEnv).drawCmd =
      some (exportCommand demoStateJpg demoComposite)) ∧
    ((demoStateJpg.format = OutputFormat.jpg →
        (exportCommand demoStateJpg demoComposite).prep =
          SurfaceFill.fill demoStateJpg.jpgBackground ∧
        fillSem (exportCommand demoStateJpg demoComposite).prep =
          opaquePixel demoStateJpg.jpgBackground ∧
        (∀ src : Pixel,
          (exportPixel (exportCommand demoStateJpg demoComposite).prep src).alpha = 1) ∧
        exportPixel (exportCommand demoStateJpg demoComposite).prep transparentPixel =
          opaquePixel demoStateJpg.jpgBackground) ∧
     (demoStateJpg.format = OutputFormat.png →
        (exportCommand demoStateJpg demoComposite).prep = SurfaceFill.clear ∧
        fillSem (exportCommand demoStateJpg demoComposite).prep = transparentPixel)) := by
  have hdraw : (onDownload demoStateJpg demoEnv).drawCmd =
      some (exportCommand demoStateJpg demoComposite) := by
    rw [onDownload_of_blob demoStateJpg demoEnv demoComposite 1 rfl rfl rfl]
  exact ⟨rfl, hdraw,
    c2_jpeg_fill_png_transparent demoStateJpg demoEnv demoComposite _ rfl hdraw⟩

/-- C8: the main-thread fallback passes `readPsd` exactly the options the
worker passes, and both realise the spec's abstract decoder options
`{skipLayerData: true, skipThumbnail: true}`. -/
theorem c8_same_decode_options :
    mainThreadReadOptions = workerReadOptions ∧
    workerReadOptions.skipLayerImageData = true ∧
    workerReadOptions.skipThumbnail = true ∧
    optionsMatchSpec workerReadOptions specDecodeOptions ∧
    optionsMatchSpec mainThreadReadOptions specDecodeOptions :=
  ⟨rfl, rfl, rfl, ⟨rfl, rfl⟩, ⟨rfl, rfl⟩⟩

/-- C9: on every export draw, image smoothing is enabled exactly when the
scale factor is not 1. -/
theorem c9_smoothing_iff_scale_ne_one :
    ∀ (st : AppState) (env : ExportEnv) (p : ParsedComposite) (c : DrawCommand),
      st.parsed = some p → (onDownload st env).drawCmd = some c →
      (c.smoothing = true ↔ st.scale ≠ 1) := by
  intro st env p c hp hc
  have hcmd : c = exportCommand st p := by
    cases hctx : env.ctxAvailable
    · rw [onDownload_of_noCtx st env p hp hctx] at hc
      exact absurd hc (by simp)
    · cases hb : env.blob
      · rw [onDownload_of_nullBlob st env p hp hctx hb] at hc
        simpa using hc.symm
      · rw [onDownload_of_blob st env p _ hp hctx hb] at hc
        simpa using hc.symm
  subst hcmd
  unfold exportCommand
  simp

/-- C9 witness: a concrete export at scale 1 draws without smoothing. -/
theorem c9_smoothing_witness :
    (demoStatePng.parsed = some demoComposite) ∧
    ((onDownload demoStatePng demoEnv).drawCmd =
      some (exportCommand demoStatePng demoComposite)) ∧
    ((exportCommand demoStatePng demoComposite).smoothing = true ↔
      demoStatePng.scale ≠ 1) := by
  have hdraw : (onDownload demoStatePng demoEnv).drawCmd =
      some (exportCommand demoStatePng demoComposite) := by
    rw [onDownload_of_blob demoStatePng demoEnv demoComposite 1 rfl rfl rfl]
  exact ⟨rfl, hdraw,
    c9_smoothing_iff_scale_ne_one demoStatePng demoEnv demoComposite _ rfl hdraw⟩

/-- C10: with no decoded composite loaded, `onDownload` is a complete
no-op — no surface allocation, no draw, no encode, no download, no error,
state unchanged. -/
theorem c10_export_noop_without_parsed :
    ∀ (st : AppState) (env : ExportEnv), st.parsed = none →
      onDownload st env = ⟨st, none, false, none, none⟩ := by
  intro st env h
  exact onDownload_of_none st env h

/-- C10 witness: a concrete run with nothing loaded. -/
theorem c10_export_noop_witness :
    (demoStateEmpty.parsed = none) ∧
    (onDownload demoStateEmpty demoEnv = ⟨demoStateEmpty, none, false, none, none⟩) :=
  ⟨rfl, c10_export_noop_without_parsed demoStateEmpty demoEnv rfl⟩

/-- C3: installing a new decode result through either path preserves the
single-live-bitmap invariant, and when a previous composite existed its
bitmap is closed (it is no longer among the open bitmaps afterwards). -/
theorem c3_single_live_bitmap :
    ∀ (st : ResourceState) (fn : List Char) (w h b : ℕ),
      liveInv st → b ∉ st.openBitmaps →
      (liveInv (workerInstall st fn w h b) ∧ liveInv (mainThreadInstall st fn w h b)) ∧
      (∀ prev, st.parsed = some prev →
        prev.bitmap ∉ (workerInstall st fn w h b).openBitmaps ∧
        prev.bitmap ∉ (mainThreadInstall st fn w h b).openBitmaps) := by
  intro st fn w h b hinv hfresh
  cases hp : st.parsed with
  | none =>
    have he : st.openBitmaps = ∅ := by
      rw [hinv, hp]
      rfl
    have hopen : closePrevBitmap (createBitmap st b) = {b} := by
      simp [closePrevBitmap, createBitmap, hp, he]
    refine ⟨⟨?_, ?_⟩, ?_⟩
    · show closePrevBitmap (createBitmap st b) = bitmapsOf (some ⟨fn, w, h, b, true⟩)
      rw [hopen]
      rfl
    · show closePrevBitmap (createBitmap st b) = bitmapsOf (some ⟨fn, w, h, b, false⟩)
      rw [hopen]
      rfl
    · intro prev hprev
      exact absurd hprev (by simp)
  | some prev0 =>
    have he : st.openBitmaps = {prev0.bitmap} := by
      rw [hinv, hp]
      rfl
    have hne : b ≠ prev0.bitmap := by
      intro hcontra
      apply hfresh
      rw [he, hcontra]
      exact Finset.mem_singleton_self _
    have hopen : closePrevBitmap (createBitmap st b) = {b} := by
      show (match (createBitmap st b).parsed with
            | none => (createBitmap st b).openBitmaps
            | some prev => (createBitmap st b).openBitmaps.erase prev.bitmap) = {b}
      have hpar : (createBitmap st b).parsed = some prev0 := hp
      rw [hpar]
      show (insert b st.openBitmaps).erase prev0.bitmap = {b}
      rw [he, Finset.erase_insert_of_ne hne, Finset.erase_singleton]
      rfl
    refine ⟨⟨?_, ?_⟩, ?_⟩
    · show closePrevBitmap (createBitmap st b) = bitmapsOf (some ⟨fn, w, h, b, true⟩)
      rw [hopen]
      rfl
    · show closePrevBitmap (createBitmap st b) = bitmapsOf (some ⟨fn, w, h, b, false⟩)
      rw [hopen]
      rfl
    · intro prev hprev
      have hpp : prev = prev0 := by
        injection hprev with hinj
        exact hinj.symm
      subst hpp
      constructor
      · show prev.bitmap ∉ closePrevBitmap (createBitmap st b)
        rw [hopen, Finset.mem_singleton]
        intro hcontra
        exact hne hcontra.symm
      · show prev.bitmap ∉ closePrevBitmap (createBitmap st b)
        rw [hopen, Finset.mem_singleton]
        intro hcontra
        exact hne hcontra.symm

/-- C3 witness: a concrete repeated load where bitmap 5 is live and
bitmap 7 arrives. -/
theorem c3_single_live_bitmap_witness :
    liveInv ⟨{5}, some ⟨['a'], 1, 1, 5, true⟩⟩ ∧ (7 ∉ ({5} : Finset ℕ)) ∧
    ((liveInv (workerInstall ⟨{5}, some ⟨['a'], 1, 1, 5, true⟩⟩ ['b'] 1 1 7) ∧
      liveInv (mainThreadInstall ⟨{5}, some ⟨['a'], 1, 1, 5, true⟩⟩ ['b'] 1 1 7)) ∧
     (∀ prev, (⟨{5}, some ⟨['a'], 1, 1, 5, true⟩⟩ : ResourceState).parsed = some prev →
       prev.bitmap ∉ (workerInstall ⟨{5}, some ⟨['a'], 1, 1, 5, true⟩⟩ ['b'] 1 1 7).openBitmaps ∧
       prev.bitmap ∉
         (mainThreadInstall ⟨{5}, some ⟨['a'], 1, 1, 5, true⟩⟩ ['b'] 1 1 7).openBitmaps)) :=
  ⟨rfl, by decide,
   c3_single_live_bitmap ⟨{5}, some ⟨['a'], 1, 1, 5, true⟩⟩ ['b'] 1 1 7
     rfl (by decide)⟩

/-- C4: a file name with no four-character suffix lowercasing to `.psd` is
rejected with the error message and dispatched nowhere; a name ending in
`.psd` in any letter case passes validation and is dispatched. -/
theorem c4_psd_extension_gate :
    ∀ (name : List Char) (hasWorker : Bool),
      ((¬ ∃ e, List.map Char.toLower e = psdExtChars ∧ e <:+ name) →
        handleFile hasWorker name = ⟨some errNotPsdMsg, none⟩) ∧
      ((∃ e, List.map Char.toLower e = psdExtChars ∧ e <:+ name) →
        (handleFile hasWorker name).error = none ∧
        (handleFile hasWorker name).dispatch ≠ none) := by
  intro name hasWorker
  constructor
  · intro hno
    have hfalse : hasPsdExtension name = false := by
      rw [Bool.eq_false_iff]
      intro h
      exact hno ((hasPsdExtension_iff name).mp h)
    unfold handleFile
    simp [hfalse]
  · intro hyes
    have htrue : hasPsdExtension name = true := (hasPsdExtension_iff name).mpr hyes
    unfold handleFile
    cases hasWorker <;> simp [htrue]

/-- C4 witness: the name `a.PsD` carries a mixed-case `.psd` suffix and is
dispatched with no error. -/
theorem c4_psd_extension_gate_witness :
    (∃ e, List.map Char.toLower e = psdExtChars ∧
      e <:+ (['a', '.', 'P', 's', 'D'] : List Char)) ∧
    ((handleFile true ['a', '.', 'P', 's', 'D']).error = none ∧
     (handleFile true ['a', '.', 'P', 's', 'D']).dispatch ≠ none) :=
  have hex : ∃ e, List.map Char.toLower e = psdExtChars ∧
      e <:+ (['a', '.', 'P', 's', 'D'] : List Char) :=
    ⟨['.', 'P', 's', 'D'], by decide, ⟨['a'], rfl⟩⟩
  ⟨hex, (c4_psd_extension_gate ['a', '.', 'P', 's', 'D'] true).2 hex⟩

/-- C5: the worker answers every parse request with exactly one message,
and a decoded PSD without a composite canvas yields the no-composite error
message and no bitmap-carrying message. -/
theorem c5_worker_single_reply :
    ∀ (off : Bool) (fn : List Char) (res : Except (List Char) Psd),
      (workerOnParse off fn res).length = 1 ∧
      (∀ psd : Psd, off = true → res = Except.ok psd → psd.canvas = none →
        workerOnParse off fn res = [WorkerResponse.error errNoCompositeMsg] ∧
        ∀ r ∈ workerOnParse off fn res, r.isParsed = false) := by
  intro off fn res
  constructor
  · cases off with
    | false => rfl
    | true =>
      cases res with
      | error m => rfl
      | ok psd =>
        cases hc : psd.canvas with
        | none => simp [workerOnParse, hc]
        | some c => simp [workerOnParse, hc]
  · intro psd hoff hres hc
    subst hoff
    subst hres
    have hrun : workerOnParse true fn (Except.ok psd) =
        [WorkerResponse.error errNoCompositeMsg] := by
      simp [workerOnParse, hc]
    refine ⟨hrun, ?_⟩
    rw [hrun]
    intro r hr
    rw [List.mem_singleton] at hr
    rw [hr]
    rfl

/-- C5 witness: a PSD decoded without a canvas gets the no-composite error
as its single reply. -/
theorem c5_worker_single_reply_witness :
    ((⟨7, 9, none⟩ : Psd).canvas = none) ∧
    (workerOnParse true [] (Except.ok ⟨7, 9, none⟩) =
      [WorkerResponse.error errNoCompositeMsg] ∧
     ∀ r ∈ workerOnParse true [] (Except.ok ⟨7, 9, none⟩), r.isParsed = false) :=
  ⟨rfl,
   (c5_worker_single_reply true [] (Except.ok ⟨7, 9, none⟩)).2 ⟨7, 9, none⟩ rfl rfl rfl⟩

/-- C6: on export, an unavailable 2D context or a null blob sets an error
and performs no download, leaving the composite and every other state
field unchanged. -/
theorem c6_export_failure_safe :
    ∀ (st : AppState) (env : ExportEnv) (p : ParsedComposite),
      st.parsed = some p → (env.ctxAvailable = false ∨ env.blob = none) →
      (onDownload st env).download = none ∧
      (∃ m, (onDownload st env).state = setError st m) ∧
      (onDownload st env).state.parsed = st.parsed ∧
      (onDownload st env).state.format = st.format ∧
      (onDownload st env).state.jpgQuality = st.jpgQuality ∧
      (onDownload st env).state.jpgBackground = st.jpgBackground ∧
      (onDownload st env).state.scale = st.scale ∧
      (onDownload st env).state.isParsing = st.isParsing ∧
      (onDownload st env).state.isDragging = st.isDragging := by
  intro st env p hp hfail
  cases hctx : env.ctxAvailable with
  | false =>
    rw [onDownload_of_noCtx st env p hp hctx]
    exact ⟨rfl, ⟨errNoCtxMsg, rfl⟩, rfl, rfl, rfl, rfl, rfl, rfl, rfl⟩
  | true =>
    have hb : env.blob = none := by
      cases hfail with
      | inl h =>
        rw [hctx] at h
        exact Bool.noConfusion h
      | inr h => exact h
    rw [onDownload_of_nullBlob st env p hp hctx hb]
    exact ⟨rfl, ⟨errNullBlobMsg, rfl⟩, rfl, rfl, rfl, rfl, rfl, rfl, rfl⟩

/-- C6 witness: a concrete export attempt with the 2D context missing. -/
theorem c6_export_failure_safe_witness :
    (demoStateJpg.parsed = some demoComposite) ∧
    ((⟨false, none⟩ : ExportEnv).ctxAvailable = false ∨
      (⟨false, none⟩ : ExportEnv).blob = none) ∧
    ((onDownload demoStateJpg ⟨false, none⟩).download = none ∧
     (∃ m, (onDownload demoStateJpg ⟨false, none⟩).state = setError demoStateJpg m) ∧
     (onDownload demoStateJpg ⟨false, none⟩).state.parsed = demoStateJpg.parsed ∧
     (onDownload demoStateJpg ⟨false, none⟩).state.format = demoStateJpg.format ∧
     (onDownload demoStateJpg ⟨false, none⟩).state.jpgQuality = demoStateJpg.jpgQuality ∧
     (onDownload demoStateJpg ⟨false, none⟩).state.jpgBackground =
       demoStateJpg.jpgBackground ∧
     (onDownload demoStateJpg ⟨false, none⟩).state.scale = demoStateJpg.scale ∧
     (onDownload demoStateJpg ⟨false, none⟩).state.isParsing = demoStateJpg.isParsing ∧
     (onDownload demoStateJpg ⟨false, none⟩).state.isDragging = demoStateJpg.isDragging) :=
  ⟨rfl, Or.inl rfl,
   c6_export_failure_safe demoStateJpg ⟨false, none⟩ demoComposite rfl (Or.inl rfl)⟩

/-- C7: a successful export downloads a file named
`<base>-<W>x<H>.<ext>`, where the base is the original name with a
case-insensitive `.psd` suffix removed, the dimensions are the computed
export dimensions, the extension is `png` or `jpg` by format, and the
quality argument is passed to the encoder exactly when the format is
JPEG. -/
theorem c7_download_name_format :
    ∀ (st : AppState) (env : ExportEnv) (p : ParsedComposite) (b : ℕ),
      st.parsed = some p → env.ctxAvailable = true → env.blob = some b →
      ((onDownload st env).download =
        some ⟨downloadNameOf p.fileName (exportDim p.width st.scale)
                (exportDim p.height st.scale) st.format, b⟩) ∧
      (downloadNameOf p.fileName (exportDim p.width st.scale)
          (exportDim p.height st.scale) st.format =
        stripPsdExt p.fileName ++ '-' :: natDigits (exportDim p.width st.scale) ++
          'x' :: natDigits (exportDim p.height st.scale) ++
          '.' :: formatExt st.format) ∧
      (hasPsdExtension p.fileName = true →
        ∃ e, List.map Char.toLower e = psdExtChars ∧
          p.fileName = stripPsdExt p.fileName ++ e) ∧
      (formatExt OutputFormat.png = ['p', 'n', 'g'] ∧
        formatExt OutputFormat.jpg = ['j', 'p', 'g']) ∧
      ((onDownload st env).encodeCall = some (encodeCallOf st.format st.jpgQuality)) ∧
      ((encodeCallOf st.format st.jpgQuality).quality = some st.jpgQuality ↔
        st.format = OutputFormat.jpg) := by
  intro st env p b hp hctx hb
  rw [onDownload_of_blob st env p b hp hctx hb]
  refine ⟨rfl, rfl, stripPsdExt_append p.fileName, ⟨rfl, rfl⟩, rfl, ?_⟩
  cases hf : st.format with
  | png => simp [encodeCallOf]
  | jpg => simp [encodeCallOf]

/-- C7 witness: a concrete JPEG export with context and blob available. -/
theorem c7_download_name_format_witness :
    (demoStateJpg.parsed = some demoComposite) ∧
    (demoEnv.ctxAvailable = true) ∧ (demoEnv.blob = some 1) ∧
    (((onDownload demoStateJpg demoEnv).download =
        some ⟨downloadNameOf demoComposite.fileName
                (exportDim demoComposite.width demoStateJpg.scale)
                (exportDim demoComposite.height demoStateJpg.scale)
                demoStateJpg.format, 1⟩) ∧
     (downloadNameOf demoComposite.fileName
         (exportDim demoComposite.width demoStateJpg.scale)
         (exportDim demoComposite.height demoStateJpg.scale) demoStateJpg.format =
       stripPsdExt demoComposite.fileName ++
         '-' :: natDigits (exportDim demoComposite.width demoStateJpg.scale) ++
         'x' :: natDigits (exportDim demoComposite.height demoStateJpg.scale) ++
         '.' :: formatExt demoStateJpg.format) ∧
     (hasPsdExtension demoComposite.fileName = true →
       ∃ e, List.map Char.toLower e = psdExtChars ∧
         demoComposite.fileName = stripPsdExt demoComposite.fileName ++ e) ∧
     (formatExt OutputFormat.png = ['p', 'n', 'g'] ∧
       formatExt OutputFormat.jpg = ['j', 'p', 'g']) ∧
     ((onDownload demoStateJpg demoEnv).encodeCall =
       some (encodeCallOf demoStateJpg.format demoStateJpg.jpgQuality)) ∧
     ((encodeCallOf demoStateJpg.format demoStateJpg.jpgQuality).quality =
         some demoStateJpg.jpgQuality ↔
       demoStateJpg.format = OutputFormat.jpg)) :=
  ⟨rfl, rfl, rfl,
   c7_download_name_format demoStateJpg demoEnv demoComposite 1 rfl rfl rfl⟩

end PsdConvert
